import Mathlib

/-! # Evergreen: local command executor and host connectors

A shallow embedding of `subprocess/local_command.go` (the `LocalCommand`
executor) and `rest/data/host.go` (the host connectors), with the properties
of the specification stated over it.

Conventions of the embedding:

* a Go `error` is `Option GoError`, `none` being `nil`;
* a pointer that may be `nil` is an `Option`; dereferencing `nil` is the
  outcome `Go.panic`;
* a method with a pointer receiver returns a `Call`: the receiver's fields
  after the call, the returned value (or the panic) and the effects the call
  performed on the outside world, in order;
* the operating system, the cancellation context and the expansion engine are
  parameters: the code only invokes them;
* the `sync.RWMutex` is not represented: every method is embedded as the
  sequential body it runs while holding the lock.
-/

namespace Evergreen

/-! ## Go values -/

/-- Outcome of running a Go function body: it returns a value or panics. -/
inductive Go (α : Type) where
  | ret (a : α)
  | panic (msg : String)
deriving DecidableEq, Repr

/-- The runtime message of a nil pointer dereference. -/
def nilDeref : String := "invalid memory address or nil pointer dereference"

/-- The runtime message of a slice expression with bad bounds. -/
def sliceBounds : String := "slice bounds out of range"

/-- Error values. `base` is an error made outside this code (the OS, the
standard library, the expansion engine); `withStack` and `withMessage` are the
two wrappers of `github.com/pkg/errors`. -/
inductive GoError where
  | base (msg : String)
  | withStack (cause : GoError)
  | withMessage (cause : GoError) (msg : String)
deriving DecidableEq, Repr

/-- The method `Error()` of an error value: `withStack` prints its cause,
`withMessage` prints `msg + ": " + cause`. -/
def GoError.Error : GoError → String
  | .base m => m
  | .withStack c => c.Error
  | .withMessage c m => m ++ ": " ++ c.Error

/-- The function `errors.Cause`: the innermost wrapped error. -/
def GoError.Cause : GoError → GoError
  | .base m => .base m
  | .withStack c => c.Cause
  | .withMessage c _ => c.Cause

/-- A Go `error` interface value; `none` is `nil`. -/
abbrev error := Option GoError

/-- The function `errors.WithStack`: `nil` for `nil`, else the error annotated
with a stack trace. -/
def errors.WithStack : error → error
  | none => none
  | some e => some (.withStack e)

/-- The function `errors.Wrapf` with its format already applied: `nil` for
`nil`, else the error annotated with the message and a stack trace. -/
def errors.Wrapf (err : error) (msg : String) : error :=
  match err with
  | none => none
  | some e => some (.withStack (.withMessage e msg))

/-- The text `sub` occurs in the text `s`. -/
def Contains (s sub : String) : Prop := sub.data <:+: s.data

/-! ## The process library (`os`, `os/exec`) -/

/-- An `os.Process`: the handle of a started process. -/
structure Process where
  Pid : Int
deriving DecidableEq, Repr

/-- An `exec.Cmd`, with the fields this code sets or reads, and `Err`, the
error of the program lookup that `exec.Command` records in the command. A
writer is the identity of a byte sink; `Stdin` is the content of the reader it
is given; `Env = none` is the nil slice. -/
structure exec.Cmd where
  Path : String
  Args : List String
  Env : Option (List String)
  Dir : String
  Stdin : Option String
  Stdout : Option Nat
  Stderr : Option Nat
  Err : error
  Process : Option Process
deriving DecidableEq, Repr

/-- The operating system as the code sees it: the caller's environment, the
lookup of a program name in the directories of `PATH` (`exec.LookPath`), and
the outcome of spawning a command (`os.StartProcess`), of killing a process
and of waiting for one. -/
structure OS where
  environ : List String
  lookPath : String → Except GoError String
  spawn : exec.Cmd → Except GoError Process
  kill : Process → error
  wait : Process → error

/-- The function `filepath.Base` on a system whose separator is `/`: the last
element of the path, trailing slashes removed; `.` for the empty path and `/`
for a path of slashes only. -/
def filepath.Base (path : String) : String :=
  if path = "" then "."
  else
    let stripped := (path.data.reverse.dropWhile (fun c => c = '/')).reverse
    let last := (stripped.reverse.takeWhile (fun c => c ≠ '/')).reverse
    if last = [] then "/" else String.mk last

/-- The function `exec.Command(name, arg...)`: the argument vector is `name`
followed by `arg`, and the program is `name`; when `name` has no directory
part it is looked up in `PATH`, and the program becomes the path found, or the
lookup error is recorded in the command. -/
def exec.Command (os : OS) (name : String) (arg : List String) : exec.Cmd :=
  let cmd : exec.Cmd :=
    { Path := name, Args := name :: arg, Env := none, Dir := "", Stdin := none,
      Stdout := none, Stderr := none, Err := none, Process := none }
  if filepath.Base name = name then
    match os.lookPath name with
    | .error err => { cmd with Err := some err }
    | .ok lp => { cmd with Path := lp }
  else cmd

/-- The method `(*exec.Cmd).Start`: returns the lookup error the command
carries, refuses a command already started, else asks the OS to spawn it and
stores the process on success. -/
def exec.Cmd.Start (os : OS) (c : exec.Cmd) : exec.Cmd × error :=
  match c.Err with
  | some e => (c, some e)
  | none =>
    match c.Process with
    | some _ => (c, some (.base "exec: already started"))
    | none =>
      match os.spawn c with
      | .ok p => ({ c with Process := some p }, none)
      | .error e => (c, some e)

/-- The launch that `(*exec.Cmd).Start` attempts for a command: it fails with
the lookup error the command carries, and otherwise is the spawn by the
OS. -/
def OS.startProcess (os : OS) (c : exec.Cmd) : Except GoError Process :=
  match c.Err with
  | some e => .error e
  | none => os.spawn c

/-- The method `(*exec.Cmd).Wait`: an error for a command that was not
started, else the outcome of waiting for its process. -/
def exec.Cmd.Wait (os : OS) (c : exec.Cmd) : error :=
  match c.Process with
  | none => some (.base "exec: not started")
  | some p => os.wait p

/-- A `context.Context` as `Run` observes it: whether `ctx.Done()` is the case
of the `select` that fires, that is, whether cancellation wins the race
against the exit of the process. -/
structure Context where
  doneFirst : Bool

/-! ## The executor -/

/-- The struct `LocalCommand` (without its mutex). `Environment = none` is the
nil slice, `Cmd = none` the nil pointer. -/
structure LocalCommand where
  CmdString : String
  WorkingDirectory : String
  Shell : String
  Environment : Option (List String)
  ScriptMode : Bool
  Stdout : Option Nat
  Stderr : Option Nat
  Cmd : Option exec.Cmd
deriving DecidableEq, Repr

/-- Effects a method performs on the outside world, as calls: `spawn c` is the
call `c.Start()` that launches the command `c`, `goWait c` the goroutine that
calls `c.Wait()`, `kill p` the call `p.Kill()`, `warning` a logged warning and
`expand s` a call of the expansion engine on `s`. -/
inductive Event where
  | spawn (c : exec.Cmd)
  | goWait (c : exec.Cmd)
  | kill (p : Process)
  | warning (msg : String)
  | expand (s : String)
deriving DecidableEq, Repr

/-- Result of calling a method on a `*LocalCommand`. -/
structure Call (α : Type) where
  lc : LocalCommand
  out : Go α
  trace : List Event

/-- Lines 68 to 70 of `Start`: an empty `Shell` becomes `"sh"`. -/
def LocalCommand.defaultShell (lc : LocalCommand) : LocalCommand :=
  if lc.Shell = "" then { lc with Shell := "sh" } else lc

/-- Lines 72 to 89 of `Start`: the command object built from the fields of an
executor whose shell has been defaulted. -/
def LocalCommand.buildCmd (os : OS) (lc : LocalCommand) : exec.Cmd :=
  let cmd : exec.Cmd :=
    if lc.ScriptMode then
      { exec.Command os lc.Shell [] with Stdin := some lc.CmdString }
    else
      exec.Command os lc.Shell ["-c", lc.CmdString]
  let cmd : exec.Cmd :=
    if lc.WorkingDirectory ≠ "" then { cmd with Dir := lc.WorkingDirectory } else cmd
  let cmd : exec.Cmd := { cmd with Env := lc.Environment }
  let cmd : exec.Cmd := if cmd.Env = none then { cmd with Env := some os.environ } else cmd
  { cmd with Stdout := lc.Stdout, Stderr := lc.Stderr }

/-- The method `(*LocalCommand).Start`. The command object is stored in `Cmd`
before it is started; `cmd.Start()` then acts on that same object, so what
`Cmd` points to afterwards is the command as `cmd.Start()` left it. -/
def LocalCommand.Start (os : OS) (lc : LocalCommand) : Call error :=
  let lc := lc.defaultShell
  let cmd := lc.buildCmd os
  let started := cmd.Start os
  { lc := { lc with Cmd := some started.1 }, out := .ret started.2, trace := [.spawn cmd] }

/-- The message `Run` gives `errors.Wrapf` on cancellation. -/
def canceledMsg (cmdString : String) : String :=
  "operation '" ++ cmdString ++ "' was canceled and terminated."

/-- The method `(*LocalCommand).Run`. -/
def LocalCommand.Run (os : OS) (ctx : Context) (lc : LocalCommand) : Call error :=
  let s := lc.Start os
  match s.out with
  | .panic m => { s with out := .panic m }
  | .ret (some e) => { s with out := .ret (some e) }
  | .ret none =>
    match s.lc.Cmd with
    | none => { s with out := .panic nilDeref }
    | some cmd =>
      if ctx.doneFirst then
        match cmd.Process with
        | none => { s with out := .panic nilDeref, trace := s.trace ++ [.goWait cmd] }
        | some p =>
          { s with
            out := .ret (errors.Wrapf (os.kill p) (canceledMsg s.lc.CmdString)),
            trace := s.trace ++ [.goWait cmd, .kill p] }
      else
        { s with
          out := .ret (errors.WithStack (cmd.Wait os)),
          trace := s.trace ++ [.goWait cmd] }

/-- The method `(*LocalCommand).GetPid`. -/
def LocalCommand.GetPid (lc : LocalCommand) : Call Int :=
  match lc.Cmd with
  | none => { lc := lc, out := .ret (-1), trace := [] }
  | some cmd =>
    match cmd.Process with
    | none => { lc := lc, out := .panic nilDeref, trace := [] }
    | some p => { lc := lc, out := .ret p.Pid, trace := [] }

/-- The warning `Stop` logs when there is nothing to kill. -/
def stopWarning : String := "Trying to stop command but Cmd / Process was nil"

/-- The method `(*LocalCommand).Stop`. -/
def LocalCommand.Stop (os : OS) (lc : LocalCommand) : Call error :=
  match lc.Cmd with
  | some cmd =>
    match cmd.Process with
    | some p => { lc := lc, out := .ret (os.kill p), trace := [.kill p] }
    | none => { lc := lc, out := .ret none, trace := [.warning stopWarning] }
  | none => { lc := lc, out := .ret none, trace := [.warning stopWarning] }

/-- The method `(*LocalCommand).PrepToRun`. The expansion engine
(`util.Expansions.ExpandString`) is the parameter `expand`: like the Go
method it returns a string together with an error. -/
def LocalCommand.PrepToRun (expand : String → String × error) (lc : LocalCommand) :
    Call error :=
  let r1 := expand lc.CmdString
  let lc1 : LocalCommand := { lc with CmdString := r1.1 }
  match r1.2 with
  | some e => { lc := lc1, out := .ret (errors.WithStack (some e)), trace := [.expand lc.CmdString] }
  | none =>
    let r2 := expand lc1.WorkingDirectory
    { lc := { lc1 with WorkingDirectory := r2.1 },
      out := .ret (errors.WithStack r2.2),
      trace := [.expand lc.CmdString, .expand lc1.WorkingDirectory] }

/-! ## The host connectors (`rest/data/host.go`) -/

/-- Modelled from the spec: the record type `host.Host` of package
`model/host`, which is not among the sources. The connectors read only `Id`;
`Status` and `Tag` stand for the rest of the record. -/
structure host.Host where
  Id : String
  Status : String
  Tag : Nat
deriving DecidableEq, Repr

/-- Modelled from the spec: the typed error `rest.APIError` of package `rest`,
which is not among the sources: a status code and a message. -/
structure rest.APIError where
  StatusCode : Int
  Message : String
deriving DecidableEq, Repr

/-- The constant `http.StatusNotFound`. -/
def http.StatusNotFound : Int := 404

/-- An `error` returned by a connector: an `APIError`, or an error handed up
from the database layer. -/
inductive ConnError where
  | api (e : rest.APIError)
  | db (e : GoError)
deriving DecidableEq, Repr

/-- The database layer as `DBHostConnector` calls it:
`host.GetHostsByFromIdWithStatus` and `host.FindOne(host.ById(id))`. A nil
slice or pointer is `none`. -/
structure HostDB where
  GetHostsByFromIdWithStatus :
    String → String → Int → Int → Option (List host.Host) × error
  FindOneById : String → Option host.Host × error

/-- The builtin `len` of a slice that may be nil. -/
def sliceLen {α : Type} : Option (List α) → Nat
  | none => 0
  | some xs => xs.length

/-- The method `(*DBHostConnector).FindHostsById`. -/
def DBHostConnector.FindHostsById (db : HostDB) (id status : String) (limit sortDir : Int) :
    Option (List host.Host) × Option ConnError :=
  let r := db.GetHostsByFromIdWithStatus id status limit sortDir
  match r.2 with
  | some err => (none, some (.db err))
  | none =>
    if sliceLen r.1 = 0 then
      (none, some (.api { StatusCode := http.StatusNotFound, Message := "no hosts found" }))
    else (r.1, none)

/-- The message of the not-found error of `FindHostById`. -/
def hostNotFoundMsg (id : String) : String := "host with id " ++ id ++ " not found"

/-- The method `(*DBHostConnector).FindHostById`. -/
def DBHostConnector.FindHostById (db : HostDB) (id : String) :
    Option host.Host × Option ConnError :=
  let r := db.FindOneById id
  match r.2 with
  | some err => (none, some (.db err))
  | none =>
    match r.1 with
    | none =>
      (none, some (.api { StatusCode := http.StatusNotFound, Message := hostNotFoundMsg id }))
    | some h => (some h, none)

/-- The struct `MockHostConnector`. -/
structure MockHostConnector where
  CachedHosts : List host.Host
deriving DecidableEq, Repr

/-- Arithmetic of the Go type `int` of `w` bits: the result wraps around into
`-2^(w-1) .. 2^(w-1)-1`. -/
def wrapInt (w : Nat) (x : Int) : Int :=
  (x + 2 ^ (w - 1)) % 2 ^ w - 2 ^ (w - 1)

/-- The slice expression `xs[lo:hi]`: it panics unless `0 ≤ lo ≤ hi ≤ len`.
(Go checks `hi` against the capacity; every `hi` this code uses that is not
below `lo` is bounded by the length.) -/
def sliceExpr {α : Type} (xs : List α) (lo hi : Int) : Go (List α) :=
  if 0 ≤ lo ∧ lo ≤ hi ∧ hi ≤ (xs.length : Int) then
    .ret ((xs.drop lo.toNat).take (hi.toNat - lo.toNat))
  else .panic sliceBounds

/-- Lines 61 to 74 of `FindHostsById`: the hosts to return once the host at
index `ix` matched. `w` is the width of `int`. -/
def MockHostConnector.window (w : Nat) (hc : MockHostConnector) (ix limit sort : Int) :
    Go (List host.Host) :=
  if sort < 0 then
    if wrapInt w (ix - limit) > 0 then
      sliceExpr hc.CachedHosts (wrapInt w (ix - limit)) ix
    else
      sliceExpr hc.CachedHosts 0 ix
  else
    if wrapInt w (ix + limit) > (hc.CachedHosts.length : Int) then
      sliceExpr hc.CachedHosts ix hc.CachedHosts.length
    else
      sliceExpr hc.CachedHosts ix (wrapInt w (ix + limit))

/-- The loop of `FindHostsById` over the hosts not yet visited, `ix` being the
index of the first of them; `nil, nil` when it runs to the end. -/
def MockHostConnector.findFrom (w : Nat) (hc : MockHostConnector) (id : String)
    (limit sort : Int) : List host.Host → Nat → Go (Option (List host.Host) × Option ConnError)
  | [], _ => .ret (none, none)
  | h :: rest, ix =>
    if h.Id = id then
      match hc.window w ix limit sort with
      | .ret hostsToReturn => .ret (some hostsToReturn, none)
      | .panic m => .panic m
    else findFrom w hc id limit sort rest (ix + 1)

/-- The method `(*MockHostConnector).FindHostsById`; `w` is the width of the
Go type `int` on the platform. The argument `status` is not used. -/
def MockHostConnector.FindHostsById (w : Nat) (hc : MockHostConnector) (id _status : String)
    (limit sort : Int) : Go (Option (List host.Host) × Option ConnError) :=
  hc.findFrom w id limit sort hc.CachedHosts 0

/-- The loop of `FindHostById`: the first host with the given id, or the
not-found error when the loop runs to the end. -/
def MockHostConnector.findHost (id : String) :
    List host.Host → Option host.Host × Option ConnError
  | [] => (none, some (.api { StatusCode := http.StatusNotFound, Message := hostNotFoundMsg id }))
  | h :: rest => if h.Id = id then (some h, none) else findHost id rest

/-- The method `(*MockHostConnector).FindHostById`. -/
def MockHostConnector.FindHostById (hc : MockHostConnector) (id : String) :
    Option host.Host × Option ConnError :=
  MockHostConnector.findHost id hc.CachedHosts

/-! ## Sample inputs -/

/-- An executor as a caller constructs it: `sleep 100`, every other field at
its zero value. -/
def sampleCommand : LocalCommand :=
  { CmdString := "sleep 100", WorkingDirectory := "", Shell := "", Environment := none,
    ScriptMode := false, Stdout := none, Stderr := none, Cmd := none }

/-- An OS on which every program is found in `/bin`, every spawn succeeds
with process 4242, and killing and waiting report no error. -/
def goodOS : OS :=
  { environ := ["PATH=/bin"], lookPath := fun name => .ok ("/bin/" ++ name),
    spawn := fun _ => .ok ⟨4242⟩, kill := fun _ => none, wait := fun _ => none }

/-- An OS on whose `PATH` there is no `sh`, and on which no program can be
spawned. -/
def noSpawnOS : OS :=
  { environ := ["PATH=/bin"],
    lookPath := fun name =>
      if name = "sh" then .error (.base "exec: \"sh\": executable file not found in $PATH")
      else .ok ("/bin/" ++ name),
    spawn := fun _ => .error (.base "fork/exec: permission denied"),
    kill := fun _ => none, wait := fun _ => none }

/-- An OS on which every program is found in `/bin` and spawning succeeds,
waiting reports exit status 1 and killing reports that the process is gone. -/
def badExitOS : OS :=
  { environ := ["PATH=/bin"], lookPath := fun name => .ok ("/bin/" ++ name),
    spawn := fun _ => .ok ⟨4242⟩,
    kill := fun _ => some (.base "os: process already finished"),
    wait := fun _ => some (.base "exit status 1") }

/-- An expansion engine that knows the variable `task`, and reports an
unclosed `${` in the text `/data/${dir` and in the text `run ${`. -/
def sampleExpand (s : String) : String × error :=
  if s = "echo $\x7btask\x7d" then ("echo compile", none)
  else if s = "/data/$\x7bdir" then ("", some (.base "unclosed expansion"))
  else if s = "run $\x7b" then ("", some (.base "unclosed expansion"))
  else (s, none)

/-- A cache of three hosts; the id `h2` occurs at index 1 only. -/
def sampleHosts : MockHostConnector :=
  { CachedHosts := [⟨"h1", "running", 0⟩, ⟨"h2", "running", 1⟩, ⟨"h3", "terminated", 2⟩] }

/-! ## Lemmas on `Start` -/

/-- A command fresh from `exec.Command` has no process. -/
theorem Command_Process (os : OS) (name : String) (arg : List String) :
    (exec.Command os name arg).Process = none := by
  unfold exec.Command
  split
  · split <;> rfl
  · rfl

/-- The argument vector of a command from `exec.Command`. -/
theorem Command_Args (os : OS) (name : String) (arg : List String) :
    (exec.Command os name arg).Args = name :: arg := by
  unfold exec.Command
  split
  · split <;> rfl
  · rfl

/-- A command fresh from `exec.Command` has no standard input. -/
theorem Command_Stdin (os : OS) (name : String) (arg : List String) :
    (exec.Command os name arg).Stdin = none := by
  unfold exec.Command
  split
  · split <;> rfl
  · rfl

/-- The program of a command from `exec.Command`: the name, or what the
lookup of a name without a directory part found. -/
theorem Command_Path (os : OS) (name : String) (arg : List String) :
    (exec.Command os name arg).Path =
      if filepath.Base name = name then
        match os.lookPath name with
        | .ok lp => lp
        | .error _ => name
      else name := by
  unfold exec.Command
  split
  · split <;> simp_all
  · rfl

/-- The command object `Start` builds has no process yet. -/
theorem buildCmd_Process (os : OS) (lc : LocalCommand) : (lc.buildCmd os).Process = none := by
  unfold LocalCommand.buildCmd
  by_cases h1 : lc.ScriptMode <;> by_cases h2 : lc.WorkingDirectory = "" <;>
    by_cases h3 : lc.Environment = none <;> simp [h1, h2, h3, Command_Process]

/-- The argument vector, standard input and program of the command object
`Start` builds. -/
theorem buildCmd_invocation (os : OS) (d : LocalCommand) :
    (d.buildCmd os).Args = d.Shell :: (if d.ScriptMode then [] else ["-c", d.CmdString]) ∧
      (d.buildCmd os).Stdin = (if d.ScriptMode then some d.CmdString else none) ∧
      (d.buildCmd os).Path =
        (if filepath.Base d.Shell = d.Shell then
          match os.lookPath d.Shell with
          | .ok found => found
          | .error _ => d.Shell
        else d.Shell) := by
  unfold LocalCommand.buildCmd
  by_cases h1 : d.ScriptMode <;> by_cases h2 : d.WorkingDirectory = "" <;>
    by_cases h3 : d.Environment = none <;>
    simp [h1, h2, h3, Command_Args, Command_Stdin, Command_Path]

/-- What `(*exec.Cmd).Start` does on a command without a process whose launch
succeeds. -/
theorem Cmd_Start_of_ok (os : OS) (c : exec.Cmd) (p : Process) (hP : c.Process = none)
    (h : os.startProcess c = .ok p) : c.Start os = ({ c with Process := some p }, none) := by
  unfold OS.startProcess at h
  unfold exec.Cmd.Start
  cases hE : c.Err with
  | some e => simp [hE] at h
  | none =>
    simp only [hE] at h
    simp [hP, h]

/-- What `(*exec.Cmd).Start` does on a command without a process whose launch
fails. -/
theorem Cmd_Start_of_error (os : OS) (c : exec.Cmd) (e : GoError) (hP : c.Process = none)
    (h : os.startProcess c = .error e) : c.Start os = (c, some e) := by
  unfold OS.startProcess at h
  unfold exec.Cmd.Start
  cases hE : c.Err with
  | some e' =>
    simp only [hE, Except.error.injEq] at h
    simp [h]
  | none =>
    simp only [hE] at h
    simp [hP, h]

/-- Defaulting the shell leaves the command text as it is. -/
theorem defaultShell_CmdString (lc : LocalCommand) :
    lc.defaultShell.CmdString = lc.CmdString := by
  unfold LocalCommand.defaultShell
  split <;> rfl

/-- The shell after defaulting. -/
theorem defaultShell_Shell (lc : LocalCommand) :
    lc.defaultShell.Shell = if lc.Shell = "" then "sh" else lc.Shell := by
  unfold LocalCommand.defaultShell
  split <;> rfl

/-- Defaulting the shell leaves the script mode as it is. -/
theorem defaultShell_ScriptMode (lc : LocalCommand) :
    lc.defaultShell.ScriptMode = lc.ScriptMode := by
  unfold LocalCommand.defaultShell
  split <;> rfl

/-- What `Start` does when the launch yields a process. -/
theorem Start_of_ok (os : OS) (lc : LocalCommand) (p : Process)
    (h : os.startProcess (lc.defaultShell.buildCmd os) = .ok p) :
    lc.Start os =
      { lc := { lc.defaultShell with
                Cmd := some { lc.defaultShell.buildCmd os with Process := some p } },
        out := .ret none,
        trace := [.spawn (lc.defaultShell.buildCmd os)] } := by
  simp [LocalCommand.Start, Cmd_Start_of_ok os _ p (buildCmd_Process os _) h]

/-- What `Start` does when the launch fails. -/
theorem Start_of_error (os : OS) (lc : LocalCommand) (e : GoError)
    (h : os.startProcess (lc.defaultShell.buildCmd os) = .error e) :
    lc.Start os =
      { lc := { lc.defaultShell with Cmd := some (lc.defaultShell.buildCmd os) },
        out := .ret (some e),
        trace := [.spawn (lc.defaultShell.buildCmd os)] } := by
  simp [LocalCommand.Start, Cmd_Start_of_error os _ e (buildCmd_Process os _) h]

/-- The method `Start` returns nil exactly when the launch yielded a process. -/
theorem Start_out_nil_iff (os : OS) (lc : LocalCommand) :
    (lc.Start os).out = .ret none ↔
      ∃ p, os.startProcess (lc.defaultShell.buildCmd os) = .ok p := by
  cases h : os.startProcess (lc.defaultShell.buildCmd os) with
  | ok p => simp [Start_of_ok os lc p h]
  | error e => simp [Start_of_error os lc e h]

/-- The method `Start` returns the error `e` exactly when the launch failed with `e`. -/
theorem Start_out_error_iff (os : OS) (lc : LocalCommand) (e : GoError) :
    (lc.Start os).out = .ret (some e) ↔
      os.startProcess (lc.defaultShell.buildCmd os) = .error e := by
  cases h : os.startProcess (lc.defaultShell.buildCmd os) with
  | ok p => simp [Start_of_ok os lc p h]
  | error e' => simp [Start_of_error os lc e' h]

/-! ## Lemmas on `Run` -/

/-- What `Run` does when the OS spawned the process and cancellation wins the race. -/
theorem Run_of_canceled (os : OS) (ctx : Context) (lc : LocalCommand) (p : Process)
    (h : os.startProcess (lc.defaultShell.buildCmd os) = .ok p) (hc : ctx.doneFirst = true) :
    (lc.Run os ctx).out = .ret (errors.Wrapf (os.kill p) (canceledMsg lc.CmdString)) ∧
      (lc.Run os ctx).trace =
        [.spawn (lc.defaultShell.buildCmd os),
         .goWait { lc.defaultShell.buildCmd os with Process := some p },
         .kill p] := by
  simp [LocalCommand.Run, Start_of_ok os lc p h, hc, defaultShell_CmdString]

/-- What `Run` does when the OS spawned the process and the process exits first. -/
theorem Run_of_exited (os : OS) (ctx : Context) (lc : LocalCommand) (p : Process)
    (h : os.startProcess (lc.defaultShell.buildCmd os) = .ok p) (hc : ctx.doneFirst = false) :
    (lc.Run os ctx).out = .ret (errors.WithStack (os.wait p)) ∧
      (lc.Run os ctx).trace =
        [.spawn (lc.defaultShell.buildCmd os),
         .goWait { lc.defaultShell.buildCmd os with Process := some p }] := by
  simp [LocalCommand.Run, Start_of_ok os lc p h, hc, exec.Cmd.Wait]

/-- What `Run` does when the launch failed. -/
theorem Run_of_start_error (os : OS) (ctx : Context) (lc : LocalCommand) (e : GoError)
    (h : os.startProcess (lc.defaultShell.buildCmd os) = .error e) :
    (lc.Run os ctx).out = .ret (some e) ∧ (lc.Run os ctx).lc = (lc.Start os).lc ∧
      (lc.Run os ctx).trace = [.spawn (lc.defaultShell.buildCmd os)] := by
  simp [LocalCommand.Run, Start_of_error os lc e h]

/-- The text of the cancellation message contains the command text. -/
theorem canceledMsg_contains (c : String) : Contains (canceledMsg c) c := by
  unfold Contains canceledMsg
  exact ⟨"operation '".data, "' was canceled and terminated.".data, by simp [String.data_append]⟩

/-- An error made by `errors.Wrapf` prints as the message, a colon and the
wrapped error, so it contains whatever the message contains. -/
theorem Wrapf_contains (e : GoError) (msg sub : String) (h : Contains msg sub) :
    ∃ err, errors.Wrapf (some e) msg = some err ∧ Contains err.Error sub := by
  refine ⟨_, rfl, ?_⟩
  obtain ⟨pre, post, hpp⟩ := h
  refine ⟨pre, post ++ (": " ++ e.Error).data, ?_⟩
  simp [GoError.Error, String.data_append, ← hpp]

/-- When cancellation wins and the kill itself fails, `Run` returns an error
whose text contains the command text and whose cause is the kill error. -/
theorem Run_canceled_kill_fails (os : OS) (ctx : Context) (lc : LocalCommand) (p : Process)
    (e : GoError) (h : os.startProcess (lc.defaultShell.buildCmd os) = .ok p)
    (hc : ctx.doneFirst = true) (hk : os.kill p = some e) :
    ∃ err, (lc.Run os ctx).out = .ret (some err) ∧ Contains err.Error lc.CmdString ∧
      err.Cause = e.Cause := by
  obtain ⟨err, h1, h2⟩ := Wrapf_contains e (canceledMsg lc.CmdString) lc.CmdString
    (canceledMsg_contains lc.CmdString)
  refine ⟨err, ?_, h2, ?_⟩
  · rw [(Run_of_canceled os ctx lc p h hc).1, hk, h1]
  · simp only [errors.Wrapf, Option.some.injEq] at h1
    subst h1
    rfl

/-- When cancellation wins and the kill succeeds, `Run` returns nil. -/
theorem Run_canceled_kill_succeeds (os : OS) (ctx : Context) (lc : LocalCommand) (p : Process)
    (h : os.startProcess (lc.defaultShell.buildCmd os) = .ok p)
    (hc : ctx.doneFirst = true) (hk : os.kill p = none) :
    (lc.Run os ctx).out = .ret none := by
  rw [(Run_of_canceled os ctx lc p h hc).1, hk]
  rfl

/-! ## The claims on the executor -/

/-- C1, at a failing input: `sleep 100` is started (process 4242), the
cancellation signal wins the race, and the kill succeeds. `Run` kills the
process, yet what it returns is nil: `errors.Wrapf` of the nil kill error is
nil, so no error that carries the command text reaches the caller. -/
theorem Run_canceled_returns_nil_when_kill_succeeds :
    (sampleCommand.Start goodOS).out = .ret none ∧
      (sampleCommand.Run goodOS ⟨true⟩).out = .ret none ∧
      Event.kill ⟨4242⟩ ∈ (sampleCommand.Run goodOS ⟨true⟩).trace := by
  have h : goodOS.startProcess (sampleCommand.defaultShell.buildCmd goodOS) = .ok ⟨4242⟩ := rfl
  refine ⟨(Start_out_nil_iff goodOS sampleCommand).2 ⟨_, h⟩, ?_, ?_⟩
  · exact Run_canceled_kill_succeeds goodOS ⟨true⟩ sampleCommand ⟨4242⟩ h rfl rfl
  · rw [(Run_of_canceled goodOS ⟨true⟩ sampleCommand ⟨4242⟩ h rfl).2]
    simp

/-- C2, counterexample: an executor whose `Cmd` is nil, on an OS that cannot
find the shell. `Start` returns the spawn error and `Cmd` is not nil
afterwards. -/
theorem Start_failure_leaves_Cmd_set :
    sampleCommand.Cmd = none ∧
      (∃ e, noSpawnOS.startProcess (sampleCommand.defaultShell.buildCmd noSpawnOS) = .error e ∧
        (sampleCommand.Start noSpawnOS).out = .ret (some e)) ∧
      (sampleCommand.Start noSpawnOS).lc.Cmd ≠ none := by
  refine ⟨rfl, ⟨_, rfl, ?_⟩, ?_⟩
  · exact (Start_out_error_iff noSpawnOS sampleCommand _).2 rfl
  · simp [LocalCommand.Start]

/-- C2, amended: when the launch fails (the program lookup or the OS spawn
reports an error), `Start` returns that error, and afterwards `Cmd` holds the command object that was built while the
`Process` of that object is nil; whatever the outcome, after `Start` the
`Process` of `Cmd` is non-nil exactly when `Start` returned nil. -/
theorem Start_process_nil_unless_success (os : OS) (lc : LocalCommand) :
    (∀ e, os.startProcess (lc.defaultShell.buildCmd os) = .error e →
      (lc.Start os).out = .ret (some e) ∧
      (lc.Start os).lc.Cmd = some (lc.defaultShell.buildCmd os) ∧
      (lc.defaultShell.buildCmd os).Process = none) ∧
    (∃ cmd, (lc.Start os).lc.Cmd = some cmd ∧
      (cmd.Process ≠ none ↔ (lc.Start os).out = .ret none)) := by
  constructor
  · intro e h
    rw [Start_of_error os lc e h]
    exact ⟨rfl, rfl, buildCmd_Process os _⟩
  · cases h : os.startProcess (lc.defaultShell.buildCmd os) with
    | ok p => simp [Start_of_ok os lc p h]
    | error e => simp [Start_of_error os lc e h, buildCmd_Process]

/-- C2, amended, at a concrete input: the sample executor on an OS that cannot
spawn. -/
theorem Start_process_nil_unless_success_witness :
    (sampleCommand.Start noSpawnOS).out =
        .ret (some (.base "exec: \"sh\": executable file not found in $PATH")) ∧
      (sampleCommand.Start noSpawnOS).lc.Cmd =
        some (sampleCommand.defaultShell.buildCmd noSpawnOS) ∧
      (sampleCommand.defaultShell.buildCmd noSpawnOS).Process = none :=
  (Start_process_nil_unless_success noSpawnOS sampleCommand).1 _ rfl

/-- C3: the command `Start` hands to the OS, which is also the one it stores in
`Cmd`, is made by `exec.Command` from the program name `Shell`, or `"sh"` when
`Shell` is empty: its argument vector is that name followed by exactly `-c`
and `CmdString` when `ScriptMode` is false, and by nothing when it is true;
its standard input is absent when `ScriptMode` is false and has content
`CmdString` when it is true; and its `Path` is that name, or, for a name
without a directory part, the file the lookup of that name in `PATH` found. -/
theorem Start_invocation (os : OS) (lc : LocalCommand) :
    ∃ cmd stored prog,
      prog = (if lc.Shell = "" then "sh" else lc.Shell) ∧
      (lc.Start os).trace = [.spawn cmd] ∧ (lc.Start os).lc.Cmd = some stored ∧
      stored.Path = cmd.Path ∧ stored.Args = cmd.Args ∧ stored.Stdin = cmd.Stdin ∧
      cmd.Args = prog :: (if lc.ScriptMode then [] else ["-c", lc.CmdString]) ∧
      cmd.Stdin = (if lc.ScriptMode then some lc.CmdString else none) ∧
      cmd.Path =
        (if filepath.Base prog = prog then
          match os.lookPath prog with
          | .ok found => found
          | .error _ => prog
        else prog) := by
  have hb := buildCmd_invocation os lc.defaultShell
  rw [defaultShell_Shell, defaultShell_CmdString lc, defaultShell_ScriptMode lc] at hb
  cases h : os.startProcess (lc.defaultShell.buildCmd os) with
  | ok p =>
    refine ⟨lc.defaultShell.buildCmd os,
      { lc.defaultShell.buildCmd os with Process := some p }, _, rfl, ?_, ?_, ?_, ?_, ?_, hb⟩
    · rw [Start_of_ok os lc p h]
    · rw [Start_of_ok os lc p h]
    all_goals rfl
  | error e =>
    refine ⟨lc.defaultShell.buildCmd os, lc.defaultShell.buildCmd os, _, rfl,
      ?_, ?_, ?_, ?_, ?_, hb⟩
    · rw [Start_of_error os lc e h]
    · rw [Start_of_error os lc e h]
    all_goals rfl

/-- C3 at concrete inputs: the sample executor, whose shell is empty and which
is not in script mode, and the same executor in script mode with the shell
`/bin/bash`, on an OS that finds programs in `/bin`. -/
theorem Start_invocation_samples :
    (sampleCommand.Start goodOS).trace =
        [.spawn { Path := "/bin/sh", Args := ["sh", "-c", "sleep 100"],
                  Env := some ["PATH=/bin"], Dir := "", Stdin := none, Stdout := none,
                  Stderr := none, Err := none, Process := none }] ∧
      (({ sampleCommand with Shell := "/bin/bash", ScriptMode := true } :
          LocalCommand).Start goodOS).trace =
        [.spawn { Path := "/bin/bash", Args := ["/bin/bash"],
                  Env := some ["PATH=/bin"], Dir := "", Stdin := some "sleep 100",
                  Stdout := none, Stderr := none, Err := none, Process := none }] := by
  constructor <;> decide

/-- C4: when `Start` succeeds inside `Run` and the process exits before the
cancellation signal fires, `Run` returns `errors.WithStack` of what waiting on
the spawned process reported: nil exactly when the wait reported no error,
and otherwise the wait error under a stack annotation; it kills nothing. When
`Start` fails, `Run` returns the error of `Start`, and the only effect of the
call is the spawn attempt: nothing is waited on or killed. -/
theorem Run_exit_and_start_failure (os : OS) (ctx : Context) (lc : LocalCommand) :
    ((lc.Start os).out = .ret none → ctx.doneFirst = false →
      ∃ cmd p, (lc.Start os).lc.Cmd = some cmd ∧ cmd.Process = some p ∧
        ((lc.Run os ctx).out = .ret none ↔ os.wait p = none) ∧
        (∀ e, os.wait p = some e →
          (lc.Run os ctx).out = .ret (some (.withStack e)) ∧
          (GoError.withStack e).Cause = e.Cause ∧ (GoError.withStack e).Error = e.Error) ∧
        (lc.Run os ctx).trace = (lc.Start os).trace ++ [.goWait cmd]) ∧
    (∀ e, (lc.Start os).out = .ret (some e) →
      (lc.Run os ctx).out = .ret (some e) ∧
      (lc.Run os ctx).lc = (lc.Start os).lc ∧
      (lc.Run os ctx).trace = (lc.Start os).trace ∧
      ∀ ev ∈ (lc.Run os ctx).trace, ∃ c, ev = .spawn c) := by
  constructor
  · intro hs hc
    obtain ⟨p, hp⟩ := (Start_out_nil_iff os lc).1 hs
    obtain ⟨ho, ht⟩ := Run_of_exited os ctx lc p hp hc
    refine ⟨{ lc.defaultShell.buildCmd os with Process := some p }, p, ?_, rfl, ?_, ?_, ?_⟩
    · rw [Start_of_ok os lc p hp]
    · rw [ho]
      cases os.wait p <;> simp [errors.WithStack]
    · intro e he
      rw [ho, he]
      exact ⟨rfl, rfl, rfl⟩
    · rw [ht, Start_of_ok os lc p hp]
      rfl
  · intro e he
    have hp := (Start_out_error_iff os lc e).1 he
    obtain ⟨ho, hl, ht⟩ := Run_of_start_error os ctx lc e hp
    refine ⟨ho, hl, ?_, ?_⟩
    · rw [ht, Start_of_error os lc e hp]
    · rw [ht]
      intro ev hev
      exact ⟨_, List.mem_singleton.1 hev⟩

/-- C4 at concrete inputs: a clean exit, an exit with status 1, and a failed
spawn. -/
theorem Run_exit_and_start_failure_witness :
    ((sampleCommand.Run goodOS ⟨false⟩).out = .ret none ↔ goodOS.wait ⟨4242⟩ = none) ∧
      (sampleCommand.Run badExitOS ⟨false⟩).out =
        .ret (some (.withStack (.base "exit status 1"))) ∧
      (sampleCommand.Run noSpawnOS ⟨false⟩).out =
        .ret (some (.base "exec: \"sh\": executable file not found in $PATH")) ∧
      (sampleCommand.Run noSpawnOS ⟨false⟩).trace = (sampleCommand.Start noSpawnOS).trace := by
  have hg : (sampleCommand.Start goodOS).out = .ret none :=
    (Start_out_nil_iff goodOS sampleCommand).2 ⟨⟨4242⟩, rfl⟩
  have hb : (sampleCommand.Start badExitOS).out = .ret none :=
    (Start_out_nil_iff badExitOS sampleCommand).2 ⟨⟨4242⟩, rfl⟩
  have hn : (sampleCommand.Start noSpawnOS).out =
      .ret (some (.base "exec: \"sh\": executable file not found in $PATH")) :=
    (Start_out_error_iff noSpawnOS sampleCommand _).2 rfl
  obtain ⟨c1, p1, hc1, hp1, h1, -, -⟩ :=
    (Run_exit_and_start_failure goodOS ⟨false⟩ sampleCommand).1 hg rfl
  obtain ⟨c2, p2, hc2, hp2, -, h2, -⟩ :=
    (Run_exit_and_start_failure badExitOS ⟨false⟩ sampleCommand).1 hb rfl
  obtain ⟨h3, -, h4, -⟩ := (Run_exit_and_start_failure noSpawnOS ⟨false⟩ sampleCommand).2 _ hn
  refine ⟨?_, (h2 _ rfl).1, h3, h4⟩
  rw [h1]
  exact ⟨fun _ => rfl, fun _ => rfl⟩

/-- C5: when the expansion of `CmdString` succeeds with `c'` and the expansion
of `WorkingDirectory` fails, `PrepToRun` returns a non-nil error (the failure,
under a stack annotation) and `CmdString` is `c'` afterwards; when the
expansion of `CmdString` fails, `PrepToRun` returns that failure, the only
call made to the expansion engine is the one on `CmdString`, and
`WorkingDirectory` keeps its value. -/
theorem PrepToRun_failure (expand : String → String × error) (lc : LocalCommand) :
    (∀ c' d e, expand lc.CmdString = (c', none) → expand lc.WorkingDirectory = (d, some e) →
      (lc.PrepToRun expand).out = .ret (some (.withStack e)) ∧
      (lc.PrepToRun expand).lc.CmdString = c') ∧
    (∀ s e, expand lc.CmdString = (s, some e) →
      (lc.PrepToRun expand).out = .ret (some (.withStack e)) ∧
      (lc.PrepToRun expand).trace = [.expand lc.CmdString] ∧
      (lc.PrepToRun expand).lc.WorkingDirectory = lc.WorkingDirectory) := by
  constructor
  · intro c' d e h1 h2
    simp [LocalCommand.PrepToRun, h1, h2, errors.WithStack]
  · intro s e h1
    simp [LocalCommand.PrepToRun, h1, errors.WithStack]

/-- C5 at concrete inputs: a command that expands and a working directory that
does not; and a command that does not expand. -/
theorem PrepToRun_failure_witness :
    ((({ sampleCommand with CmdString := "echo $\x7btask\x7d", WorkingDirectory := "/data/$\x7bdir" } :
        LocalCommand).PrepToRun sampleExpand).out =
        .ret (some (.withStack (.base "unclosed expansion"))) ∧
      (({ sampleCommand with CmdString := "echo $\x7btask\x7d", WorkingDirectory := "/data/$\x7bdir" } :
        LocalCommand).PrepToRun sampleExpand).lc.CmdString = "echo compile") ∧
    ((({ sampleCommand with CmdString := "run $\x7b", WorkingDirectory := "/data" } :
        LocalCommand).PrepToRun sampleExpand).out =
        .ret (some (.withStack (.base "unclosed expansion"))) ∧
      (({ sampleCommand with CmdString := "run $\x7b", WorkingDirectory := "/data" } :
        LocalCommand).PrepToRun sampleExpand).trace = [.expand "run $\x7b"] ∧
      (({ sampleCommand with CmdString := "run $\x7b", WorkingDirectory := "/data" } :
        LocalCommand).PrepToRun sampleExpand).lc.WorkingDirectory = "/data") :=
  ⟨(PrepToRun_failure sampleExpand
      { sampleCommand with CmdString := "echo $\x7btask\x7d", WorkingDirectory := "/data/$\x7bdir" }).1
      "echo compile" "" (.base "unclosed expansion") (by decide) (by decide),
   (PrepToRun_failure sampleExpand
      { sampleCommand with CmdString := "run $\x7b", WorkingDirectory := "/data" }).2
      "" (.base "unclosed expansion") (by decide)⟩

/-- C6: on an OS whose spawned processes have positive identifiers, `GetPid`
returns -1 for every executor whose `Cmd` is nil, whatever its other fields;
on the executor a successful `Start` leaves, it returns the identifier of the
process the OS spawned for the command `Start` built, and that is positive;
and `GetPid` changes no field of the executor and has no effect. -/
theorem GetPid_sentinel_and_pid (os : OS)
    (hpos : ∀ c p, os.startProcess c = .ok p → 0 < p.Pid) (lc : LocalCommand) :
    (lc.Cmd = none → lc.GetPid.out = .ret (-1)) ∧
    ((lc.Start os).out = .ret none →
      ∃ p, os.startProcess (lc.defaultShell.buildCmd os) = .ok p ∧
        (lc.Start os).lc.GetPid.out = .ret p.Pid ∧ 0 < p.Pid) ∧
    (lc.GetPid.lc = lc ∧ lc.GetPid.trace = []) := by
  refine ⟨?_, ?_, ?_⟩
  · intro h
    simp [LocalCommand.GetPid, h]
  · intro h
    obtain ⟨p, hp⟩ := (Start_out_nil_iff os lc).1 h
    refine ⟨p, hp, ?_, hpos _ p hp⟩
    simp [Start_of_ok os lc p hp, LocalCommand.GetPid]
  · unfold LocalCommand.GetPid
    split
    · exact ⟨rfl, rfl⟩
    · split <;> exact ⟨rfl, rfl⟩

/-- C6 at a concrete input: the sample executor before and after a successful
`Start` that spawned process 4242. -/
theorem GetPid_sentinel_and_pid_witness :
    sampleCommand.GetPid.out = .ret (-1) ∧
      (∃ p, goodOS.startProcess (sampleCommand.defaultShell.buildCmd goodOS) = .ok p ∧
        (sampleCommand.Start goodOS).lc.GetPid.out = .ret p.Pid ∧ 0 < p.Pid) := by
  have hpos : ∀ c p, goodOS.startProcess c = .ok p → 0 < p.Pid := by
    intro c p h
    unfold OS.startProcess at h
    cases hE : c.Err with
    | some e => simp [hE] at h
    | none =>
      simp only [hE, goodOS, Except.ok.injEq] at h
      subst h
      decide
  have h := GetPid_sentinel_and_pid goodOS hpos sampleCommand
  exact ⟨h.1 rfl, h.2.1 ((Start_out_nil_iff goodOS sampleCommand).2 ⟨⟨4242⟩, rfl⟩)⟩

/-- C7: on an executor whose `Cmd` is nil, or whose `Cmd` has a nil `Process`,
`Stop` returns nil, leaves every field as it was, and its only effect is one
warning (no kill); on an executor whose `Cmd` has a process, `Stop` kills that
process and returns what the kill returned, leaves every field as it was, and
emits no warning. -/
theorem Stop_behaviour (os : OS) (lc : LocalCommand) :
    ((lc.Cmd = none ∨ ∃ c, lc.Cmd = some c ∧ c.Process = none) →
      (lc.Stop os).out = .ret none ∧ (lc.Stop os).lc = lc ∧
      (lc.Stop os).trace = [.warning stopWarning]) ∧
    (∀ c p, lc.Cmd = some c → c.Process = some p →
      (lc.Stop os).out = .ret (os.kill p) ∧ (lc.Stop os).lc = lc ∧
      (lc.Stop os).trace = [.kill p]) := by
  constructor
  · rintro (h | ⟨c, h, hp⟩)
    · simp [LocalCommand.Stop, h]
    · simp [LocalCommand.Stop, h, hp]
  · intro c p h hp
    simp [LocalCommand.Stop, h, hp]

/-- C7 at concrete inputs: an executor never started, one whose `Start`
failed, and one whose `Start` spawned process 4242 on an OS where killing it
fails. -/
theorem Stop_behaviour_witness :
    ((sampleCommand.Stop goodOS).out = .ret none ∧ (sampleCommand.Stop goodOS).lc = sampleCommand ∧
      (sampleCommand.Stop goodOS).trace = [.warning stopWarning]) ∧
    (((sampleCommand.Start noSpawnOS).lc.Stop noSpawnOS).out = .ret none ∧
      ((sampleCommand.Start noSpawnOS).lc.Stop noSpawnOS).lc = (sampleCommand.Start noSpawnOS).lc ∧
      ((sampleCommand.Start noSpawnOS).lc.Stop noSpawnOS).trace = [.warning stopWarning]) ∧
    (((sampleCommand.Start badExitOS).lc.Stop badExitOS).out =
        .ret (some (.base "os: process already finished")) ∧
      ((sampleCommand.Start badExitOS).lc.Stop badExitOS).lc = (sampleCommand.Start badExitOS).lc ∧
      ((sampleCommand.Start badExitOS).lc.Stop badExitOS).trace = [.kill ⟨4242⟩]) :=
  ⟨(Stop_behaviour goodOS sampleCommand).1 (Or.inl rfl),
   (Stop_behaviour noSpawnOS (sampleCommand.Start noSpawnOS).lc).1
     (Or.inr ⟨sampleCommand.defaultShell.buildCmd noSpawnOS, rfl, rfl⟩),
   (Stop_behaviour badExitOS (sampleCommand.Start badExitOS).lc).2
     { sampleCommand.defaultShell.buildCmd badExitOS with Process := some ⟨4242⟩ } ⟨4242⟩ rfl rfl⟩

/-- C9, at a failing input: the sample executor on an OS that cannot spawn the
shell. `Start` fails, so no process was started, and `GetPid` on the executor
it leaves does not return -1: `Cmd` is set while its `Process` is nil, and
`GetPid` dereferences it. -/
theorem GetPid_panics_after_failed_Start :
    sampleCommand.Cmd = none ∧
      (sampleCommand.Start noSpawnOS).out =
        .ret (some (.base "exec: \"sh\": executable file not found in $PATH")) ∧
      (sampleCommand.Start noSpawnOS).lc.GetPid.out = .panic nilDeref := by
  refine ⟨rfl, (Start_out_error_iff noSpawnOS sampleCommand _).2 rfl, ?_⟩
  rw [Start_of_error noSpawnOS sampleCommand _ rfl]
  rfl

/-! ## Lemmas on the host connectors -/

/-- Arithmetic that stays in the range of `int` does not wrap. -/
theorem wrapInt_of_inRange (w : Nat) (hw : 0 < w) (x : Int)
    (hlo : -(2 ^ (w - 1)) ≤ x) (hhi : x < 2 ^ (w - 1)) : wrapInt w x = x := by
  obtain ⟨k, rfl⟩ : ∃ k, w = k + 1 := ⟨w - 1, by omega⟩
  simp only [Nat.add_sub_cancel] at hlo hhi
  unfold wrapInt
  simp only [Nat.add_sub_cancel, pow_succ]
  generalize (2 : Int) ^ k = H at hlo hhi
  rw [Int.emod_eq_of_lt (by omega) (by omega)]
  omega

/-- A slice expression within bounds returns the elements from `lo` up to, not
including, `hi`. -/
theorem sliceExpr_of_le {α : Type} (xs : List α) (lo hi : Nat) (h1 : lo ≤ hi)
    (h2 : hi ≤ xs.length) :
    ∃ ys, sliceExpr xs (lo : Int) (hi : Int) = .ret ys ∧ ys.length = hi - lo ∧
      ∀ k, k < hi - lo → ys[k]? = xs[lo + k]? := by
  refine ⟨(xs.drop lo).take (hi - lo), ?_, ?_, ?_⟩
  · unfold sliceExpr
    rw [if_pos ⟨by omega, by omega, by omega⟩]
    simp
  · simp [List.length_take, List.length_drop]
    omega
  · intro k hk
    rw [List.getElem?_take_of_lt hk, List.getElem?_drop]

/-- A slice expression whose upper bound is negative panics. -/
theorem sliceExpr_of_neg {α : Type} (xs : List α) (lo hi : Int) (h : hi < 0) :
    sliceExpr xs lo hi = .panic sliceBounds := by
  unfold sliceExpr
  rw [if_neg]
  omega

/-- The loop of `FindHostsById` stops at the first host with the id, and what
it returns is made from the window at that index. -/
theorem findFrom_first (w : Nat) (hc : MockHostConnector) (id : String) (limit sort : Int) :
    ∀ (l : List host.Host) (k ix : Nat) (h : host.Host), l[ix]? = some h → h.Id = id →
      (∀ j g, j < ix → l[j]? = some g → g.Id ≠ id) →
      hc.findFrom w id limit sort l k =
        match hc.window w ((k + ix : Nat) : Int) limit sort with
        | .ret hostsToReturn => .ret (some hostsToReturn, none)
        | .panic m => .panic m := by
  intro l
  induction l with
  | nil => intro k ix h hix; simp at hix
  | cons g rest ih =>
    intro k ix h hix hid hfirst
    cases ix with
    | zero =>
      simp only [List.getElem?_cons_zero, Option.some.injEq] at hix
      subst hix
      simp [MockHostConnector.findFrom, hid]
    | succ n =>
      have hg : g.Id ≠ id := hfirst 0 g (Nat.succ_pos n) (by simp)
      simp only [List.getElem?_cons_succ] at hix
      have hrest : ∀ j g', j < n → rest[j]? = some g' → g'.Id ≠ id := fun j g' hj hj' =>
        hfirst (j + 1) g' (Nat.succ_lt_succ hj) (by simpa using hj')
      rw [MockHostConnector.findFrom, if_neg hg, ih (k + 1) n h hix hid hrest]
      have : k + 1 + n = k + (n + 1) := by omega
      rw [this]

/-- The loop of `FindHostsById` returns `nil, nil` when no host has the id. -/
theorem findFrom_none (w : Nat) (hc : MockHostConnector) (id : String) (limit sort : Int) :
    ∀ (l : List host.Host) (k : Nat), (∀ g ∈ l, g.Id ≠ id) →
      hc.findFrom w id limit sort l k = .ret (none, none) := by
  intro l
  induction l with
  | nil => intro k _; rfl
  | cons g rest ih =>
    intro k h
    rw [MockHostConnector.findFrom, if_neg (h g (List.mem_cons_self g rest))]
    exact ih (k + 1) (fun g' hg' => h g' (List.mem_cons_of_mem g hg'))

/-- The mock's `FindHostsById` returns a nil slice with a nil error whenever
no cached host has the id. -/
theorem Mock_FindHostsById_not_found (w : Nat) (hc : MockHostConnector) (id status : String)
    (limit sort : Int) (h : ∀ g ∈ hc.CachedHosts, g.Id ≠ id) :
    hc.FindHostsById w id status limit sort = .ret (none, none) :=
  findFrom_none w hc id limit sort hc.CachedHosts 0 h

/-- The mock's `FindHostById` returns the 404 `APIError` whenever no cached
host has the id. -/
theorem Mock_FindHostById_not_found (hc : MockHostConnector) (id : String)
    (h : ∀ g ∈ hc.CachedHosts, g.Id ≠ id) :
    hc.FindHostById id = (none, some (.api ⟨404, hostNotFoundMsg id⟩)) := by
  unfold MockHostConnector.FindHostById
  generalize hc.CachedHosts = l at h
  induction l with
  | nil => rfl
  | cons g rest ih =>
    rw [MockHostConnector.findHost, if_neg (h g (List.mem_cons_self g rest))]
    exact ih (fun g' hg' => h g' (List.mem_cons_of_mem g hg'))

/-- The database connector's `FindHostsById` returns the 404 `APIError`
whenever the query succeeds with no host. -/
theorem DB_FindHostsById_not_found (db : HostDB) (id status : String) (limit sortDir : Int)
    (hs : Option (List host.Host))
    (h : db.GetHostsByFromIdWithStatus id status limit sortDir = (hs, none))
    (hlen : sliceLen hs = 0) :
    DBHostConnector.FindHostsById db id status limit sortDir =
      (none, some (.api ⟨404, "no hosts found"⟩)) := by
  simp [DBHostConnector.FindHostsById, h, hlen, http.StatusNotFound]

/-- The database connector's `FindHostById` returns the 404 `APIError`
whenever the query succeeds with no host. -/
theorem DB_FindHostById_not_found (db : HostDB) (id : String)
    (h : db.FindOneById id = (none, none)) :
    DBHostConnector.FindHostById db id = (none, some (.api ⟨404, hostNotFoundMsg id⟩)) := by
  simp [DBHostConnector.FindHostById, h, http.StatusNotFound]

/-! ## The claims on the host connectors -/

/-- C8, at a failing input: the mock connector caching the three sample hosts
is asked for the hosts from id `h9`, which no cached host has. It returns a
nil slice together with a nil error, not an `APIError` with status 404; its
own `FindHostById` returns that error for the same id. -/
theorem Mock_FindHostsById_not_found_returns_nil_nil :
    (∀ g ∈ sampleHosts.CachedHosts, g.Id ≠ "h9") ∧
      sampleHosts.FindHostsById 64 "h9" "running" 10 1 = .ret (none, none) ∧
      sampleHosts.FindHostById "h9" = (none, some (.api ⟨404, "host with id h9 not found"⟩)) := by
  have h : ∀ g ∈ sampleHosts.CachedHosts, g.Id ≠ "h9" := by
    simp [sampleHosts]
  exact ⟨h, Mock_FindHostsById_not_found 64 sampleHosts "h9" "running" 10 1 h,
    Mock_FindHostById_not_found sampleHosts "h9" h⟩

/-- The window before the matching host (`sort < 0`), for a limit within the
range of `int`: the hosts at indices `ix - limit` (or 0 when that is negative)
up to `ix - 1`. -/
theorem window_before (w : Nat) (hw : 0 < w) (hc : MockHostConnector) (ix L : Nat) (sort : Int)
    (hlen : (hc.CachedHosts.length : Int) < 2 ^ (w - 1)) (hix : ix < hc.CachedHosts.length)
    (hL : (L : Int) < 2 ^ (w - 1)) (hs : sort < 0) :
    ∃ ys, hc.window w (ix : Int) (L : Int) sort = .ret ys ∧ ys.length = ix - (ix - L) ∧
      ∀ k, k < ix - (ix - L) → ys[k]? = hc.CachedHosts[(ix - L) + k]? := by
  have hwrap : wrapInt w ((ix : Int) - (L : Int)) = (ix : Int) - (L : Int) :=
    wrapInt_of_inRange w hw _ (by omega) (by omega)
  unfold MockHostConnector.window
  rw [if_pos hs, hwrap]
  by_cases hgt : (ix : Int) - (L : Int) > 0
  · rw [if_pos hgt]
    have hcast : (ix : Int) - (L : Int) = ((ix - L : Nat) : Int) := by omega
    rw [hcast]
    exact sliceExpr_of_le hc.CachedHosts (ix - L) ix (by omega) (by omega)
  · rw [if_neg hgt]
    have hz : ix - L = 0 := by omega
    rw [hz]
    exact sliceExpr_of_le hc.CachedHosts 0 ix (by omega) (by omega)

/-- The window from the matching host on (`sort ≥ 0`), for a limit such that
`ix + limit` is within the range of `int`: the hosts at indices `ix` up to
`min (ix + limit) n - 1`. -/
theorem window_after (w : Nat) (hw : 0 < w) (hc : MockHostConnector) (ix L : Nat) (sort : Int)
    (hix : ix < hc.CachedHosts.length)
    (hsum : (ix : Int) + (L : Int) < 2 ^ (w - 1)) (hs : 0 ≤ sort) :
    ∃ ys, hc.window w (ix : Int) (L : Int) sort = .ret ys ∧
      ys.length = min (ix + L) hc.CachedHosts.length - ix ∧
      ∀ k, k < min (ix + L) hc.CachedHosts.length - ix → ys[k]? = hc.CachedHosts[ix + k]? := by
  have hwrap : wrapInt w ((ix : Int) + (L : Int)) = (ix : Int) + (L : Int) :=
    wrapInt_of_inRange w hw _ (by omega) hsum
  unfold MockHostConnector.window
  rw [if_neg (by omega), hwrap]
  by_cases hgt : (ix : Int) + (L : Int) > (hc.CachedHosts.length : Int)
  · rw [if_pos hgt]
    have hmin : min (ix + L) hc.CachedHosts.length = hc.CachedHosts.length := by omega
    rw [hmin]
    exact sliceExpr_of_le hc.CachedHosts ix hc.CachedHosts.length (by omega) (le_refl _)
  · rw [if_neg hgt]
    have hmin : min (ix + L) hc.CachedHosts.length = ix + L := by omega
    have hcast : (ix : Int) + (L : Int) = ((ix + L : Nat) : Int) := by omega
    rw [hmin, hcast]
    exact sliceExpr_of_le hc.CachedHosts ix (ix + L) (by omega) (by omega)

/-- C10, counterexample: `int` has 64 bits, the cache holds the three sample
hosts, the id `h2` first occurs at index 1, `sort` is 1 and `limit` is
`2^63 - 1`, which is not negative. `ix + limit` wraps around to `-2^63`, the
guard `ix + limit > len` is false, and the slice expression
`CachedHosts[ix : ix+limit]` panics: no window is returned. -/
theorem FindHostsById_huge_limit_panics :
    sampleHosts.CachedHosts[1]? = some ⟨"h2", "running", 1⟩ ∧
      (∀ j g, j < 1 → sampleHosts.CachedHosts[j]? = some g → g.Id ≠ "h2") ∧
      (0 : Int) ≤ 9223372036854775807 ∧ (9223372036854775807 : Int) < 2 ^ 63 ∧
      sampleHosts.FindHostsById 64 "h2" "running" 9223372036854775807 1 =
        .panic sliceBounds := by
  have hfirst : ∀ j g, j < 1 → sampleHosts.CachedHosts[j]? = some g → g.Id ≠ "h2" := by
    intro j g hj hg
    obtain rfl : j = 0 := by omega
    simp only [sampleHosts, List.getElem?_cons_zero, Option.some.injEq] at hg
    subst hg
    decide
  refine ⟨rfl, hfirst, by decide, by decide, ?_⟩
  unfold MockHostConnector.FindHostsById
  rw [findFrom_first 64 sampleHosts "h2" 9223372036854775807 1 sampleHosts.CachedHosts 0 1
    ⟨"h2", "running", 1⟩ rfl rfl hfirst]
  have hwrap : wrapInt 64 (((0 + 1 : Nat) : Int) + 9223372036854775807) =
      -9223372036854775808 := by decide
  have hwin : sampleHosts.window 64 ((0 + 1 : Nat) : Int) 9223372036854775807 1 =
      .panic sliceBounds := by
    unfold MockHostConnector.window
    rw [if_neg (by decide), hwrap, if_neg (by simp [sampleHosts])]
    exact sliceExpr_of_neg _ _ _ (by decide)
  rw [hwin]

/-- C10, amended: `int` has `w` bits and the cached list (of length `n`, which
fits an `int`) has the id first at index `ix`. For every `limit` of type `int`
that is not negative and, when `sort ≥ 0`, such that `ix + limit` does not
exceed the largest `int`, `FindHostsById` returns a nil error and a window of
at most `limit` hosts of the cached list, in cached order: for `sort ≥ 0` the
hosts at indices `ix .. min (ix+limit) n - 1`, for `sort < 0` the hosts at
indices `max (ix-limit) 0 .. ix-1`; and the `status` argument has no effect
on the result, whatever the arguments. -/
theorem FindHostsById_window (w : Nat) (hw : 0 < w) (hc : MockHostConnector)
    (id status : String) (ix : Nat) (limit sort : Int) (h : host.Host)
    (hlen : (hc.CachedHosts.length : Int) < 2 ^ (w - 1))
    (hix : hc.CachedHosts[ix]? = some h) (hid : h.Id = id)
    (hfirst : ∀ j g, j < ix → hc.CachedHosts[j]? = some g → g.Id ≠ id)
    (hlim : 0 ≤ limit) (hlimw : limit < 2 ^ (w - 1))
    (hsum : 0 ≤ sort → (ix : Int) + limit < 2 ^ (w - 1)) :
    (∃ window, hc.FindHostsById w id status limit sort = .ret (some window, none) ∧
      (window.length : Int) ≤ limit ∧
      (0 ≤ sort →
        window.length = min (ix + limit.toNat) hc.CachedHosts.length - ix ∧
        ∀ k, k < window.length → window[k]? = hc.CachedHosts[ix + k]?) ∧
      (sort < 0 →
        window.length = ix - (ix - limit.toNat) ∧
        ∀ k, k < window.length → window[k]? = hc.CachedHosts[(ix - limit.toNat) + k]?)) ∧
    (∀ id' status₁ status₂ limit' sort',
      hc.FindHostsById w id' status₁ limit' sort' =
        hc.FindHostsById w id' status₂ limit' sort') := by
  refine ⟨?_, fun _ _ _ _ _ => rfl⟩
  obtain ⟨L, rfl⟩ : ∃ L : Nat, limit = (L : Int) := ⟨limit.toNat, (Int.toNat_of_nonneg hlim).symm⟩
  have hixlt : ix < hc.CachedHosts.length := by
    by_contra hge
    rw [List.getElem?_eq_none (by omega)] at hix
    cases hix
  have hfind := findFrom_first w hc id (L : Int) sort hc.CachedHosts 0 ix h hix hid hfirst
  rw [Nat.zero_add] at hfind
  unfold MockHostConnector.FindHostsById
  rw [hfind, Int.toNat_ofNat]
  by_cases hs : sort < 0
  · obtain ⟨ys, hys, hl, hk⟩ := window_before w hw hc ix L sort hlen hixlt hlimw hs
    rw [hys]
    refine ⟨ys, rfl, by omega, fun h0 => absurd hs (by omega), fun _ => ⟨hl, ?_⟩⟩
    intro k hk'
    exact hk k (hl ▸ hk')
  · have hs' : 0 ≤ sort := by omega
    obtain ⟨ys, hys, hl, hk⟩ := window_after w hw hc ix L sort hixlt (hsum hs') hs'
    rw [hys]
    refine ⟨ys, rfl, by omega, fun _ => ⟨hl, ?_⟩, fun h0 => absurd h0 hs⟩
    intro k hk'
    exact hk k (hl ▸ hk')

/-- C10, amended, at concrete inputs: 64-bit `int`, the three sample hosts,
the id `h2` (first at index 1), limit 2, forwards (`sort = 1`). -/
theorem FindHostsById_window_witness :
    ∃ window, sampleHosts.FindHostsById 64 "h2" "running" 2 1 = .ret (some window, none) ∧
      (window.length : Int) ≤ 2 ∧
      (0 ≤ (1 : Int) →
        window.length = min (1 + (2 : Int).toNat) sampleHosts.CachedHosts.length - 1 ∧
        ∀ k, k < window.length → window[k]? = sampleHosts.CachedHosts[1 + k]?) ∧
      ((1 : Int) < 0 →
        window.length = 1 - (1 - (2 : Int).toNat) ∧
        ∀ k, k < window.length →
          window[k]? = sampleHosts.CachedHosts[(1 - (2 : Int).toNat) + k]?) :=
  (FindHostsById_window 64 (by decide) sampleHosts "h2" "running" 1 2 1 ⟨"h2", "running", 1⟩
    (by decide) rfl rfl
    (by
      intro j g hj hg
      obtain rfl : j = 0 := by omega
      simp only [sampleHosts, List.getElem?_cons_zero, Option.some.injEq] at hg
      subst hg
      decide)
    (by decide) (by decide) (fun _ => by decide)).1

/-- The sample cache evaluated: forwards from `h2` with limit 2, and backwards
from `h3` with limit 1 and with limit 5. -/
theorem FindHostsById_samples :
    sampleHosts.FindHostsById 64 "h2" "running" 2 1 =
        .ret (some [⟨"h2", "running", 1⟩, ⟨"h3", "terminated", 2⟩], none) ∧
      sampleHosts.FindHostsById 64 "h3" "" 1 (-1) = .ret (some [⟨"h2", "running", 1⟩], none) ∧
      sampleHosts.FindHostsById 64 "h3" "" 5 (-1) =
        .ret (some [⟨"h1", "running", 0⟩, ⟨"h2", "running", 1⟩], none) := by
  refine ⟨?_, ?_, ?_⟩ <;> decide

end Evergreen
